import Mathlib

/-!
# Verification of the rustbin ephemeral capture store

A shallow embedding of the core of `rustbin` (src/handlers.rs,
src/tasks/cleanup.rs, src/websocket/mod.rs, src/utils/uuid.rs,
src/config.rs, src/state.rs) together with proofs about the embedded
operations.

The SQLite tables (see the schema in the repository's test setup) are
modelled as Lean lists:

* `bins (id TEXT UNIQUE PRIMARY KEY, last_updated TEXT)` becomes a list of
  `BinRow`; timestamps are abstracted to `Nat` (the clock is injected as an
  explicit `now` argument).
* `requests (id INTEGER PRIMARY KEY AUTOINCREMENT, bin_id, request_id,
  method, headers, body, timestamp)` becomes a list of `RequestRow` that is
  maintained in ascending `rowId` order (inserts append `nextRowId`, which
  strictly increases), so `ORDER BY id ASC` over the table is exactly the
  list order of the model.

`sqlx` statements can fail at the backing store; every statement consults a
`Faults` oracle that says whether that particular statement errors, so the
error-path behaviour of each handler is part of the model.

The broadcast registry `Arc<DashMap<String, broadcast::Sender<String>>>` is
modelled as an association list from bin id to the channel's current
receiver count, which is the only observation the code makes of a sender
(`receiver_count()`), besides inserting and removing entries.
-/

/-- HTTP status codes the handlers actually produce, standing for the
spec's error taxonomy: `badRequest` = InvalidIdentifier, `notFound` =
NotFound, `payloadTooLarge` = PayloadTooLarge, `internalError` =
StorageError surfaced as 500. -/
inductive HStatus where
  | ok
  | badRequest
  | notFound
  | payloadTooLarge
  | internalError
deriving DecidableEq, Repr

/-- Result of a handler: either an error response (status, message) or a
success value. -/
abbrev HResult (α : Type) := Except (HStatus × String) α

/-- `LimitsConfig` from src/config.rs (`max_requests_per_bin: i64` is
modelled as `Nat`: row counts are nonnegative and the configured default is
100). -/
structure LimitsConfig where
  maxRequestsPerBin : Nat
  maxBodySize : Nat
  maxHeadersSize : Nat
deriving DecidableEq, Repr

/-- A row of the `bins` table. -/
structure BinRow where
  id : String
  last_updated : Nat
deriving DecidableEq, Repr

/-- A row of the `requests` table.  `rowId` is the AUTOINCREMENT primary
key `id`, i.e. the monotonic insertion sequence.  The body is kept as its
raw bytes (the code checks the raw byte length and stores the lossy UTF-8
decoding; no claim depends on the decoded text). -/
structure RequestRow where
  rowId : Nat
  bin_id : String
  request_id : String
  method : String
  headers : String
  body : List Nat
  timestamp : Nat
deriving DecidableEq, Repr

/-- The SQLite database: both tables plus the next AUTOINCREMENT value. -/
structure DB where
  bins : List BinRow
  requests : List RequestRow
  nextRowId : Nat
deriving DecidableEq, Repr

/-- Well-formedness of the model database: the `requests` list is in
strictly ascending `rowId` order (the table's insertion order) and every
present `rowId` is below the next AUTOINCREMENT value.  Both hold of the
empty database and are preserved by every embedded operation. -/
def DB.WF (db : DB) : Prop :=
  db.requests.Pairwise (fun a b => a.rowId < b.rowId) ∧
  ∀ r ∈ db.requests, r.rowId < db.nextRowId

instance (db : DB) : Decidable db.WF := by
  unfold DB.WF; infer_instance

/-- `AppState` from src/state.rs: the pool, the broadcast registry and the
limits.  A registry entry `(binId, n)` models a `broadcast::Sender` whose
`receiver_count()` is `n`. -/
structure AppState where
  db : DB
  binChannels : List (String × Nat)
  limits : LimitsConfig
deriving DecidableEq, Repr

/-- Backing-store fault oracle: one flag per SQL statement the embedded
code can run; `true` means that statement returns `Err` at the store. -/
structure Faults where
  checkBinExists : Bool
  insertRequest : Bool
  capCount : Bool
  capDelete : Bool
  updateLast : Bool
  fetchRequests : Bool
  deleteBinStmt : Bool
  deleteRequestStmt : Bool
  clearStmt : Bool
deriving DecidableEq, Repr

/-- The fault-free oracle. -/
def Faults.none : Faults :=
  ⟨false, false, false, false, false, false, false, false, false⟩

/-! ## Identifier validation (src/utils/uuid.rs, `Uuid::parse_str`)

`validate_uuid` wraps `Uuid::parse_str`, which accepts the simple
(32 hex digits), hyphenated (8-4-4-4-12), braced (`{hyphenated}`) and URN
(`urn:uuid:hyphenated`) forms, case-insensitively.  The parsed value
renders (`Uuid::to_string`, and the sqlx TEXT encoding of a `Uuid` bind)
as the lowercase hyphenated form. -/

def isHexDigitChar (c : Char) : Bool :=
  (('0' ≤ c) && (c ≤ '9')) || (('a' ≤ c) && (c ≤ 'f')) || (('A' ≤ c) && (c ≤ 'F'))

def toLowerChar (c : Char) : Char :=
  if ('A' ≤ c) && (c ≤ 'Z') then Char.ofNat (c.toNat + 32) else c

def hexGroup (cs : List Char) : Bool := cs.all isHexDigitChar

def expectDash : List Char → Option (List Char)
  | c :: rest => if c == '-' then some rest else Option.none
  | [] => Option.none

/-- The hyphenated 8-4-4-4-12 form; yields the 32 hex digits. -/
def parseHyphenated (cs : List Char) : Option (List Char) := do
  let g1 := cs.take 8
  let r1 ← expectDash (cs.drop 8)
  let g2 := r1.take 4
  let r2 ← expectDash (r1.drop 4)
  let g3 := r2.take 4
  let r3 ← expectDash (r2.drop 4)
  let g4 := r3.take 4
  let g5 ← expectDash (r3.drop 4)
  if g1.length == 8 && g2.length == 4 && g3.length == 4 && g4.length == 4 &&
      g5.length == 12 && hexGroup (g1 ++ g2 ++ g3 ++ g4 ++ g5) then
    some (g1 ++ g2 ++ g3 ++ g4 ++ g5)
  else
    Option.none

def lbraceChar : Char := Char.ofNat 123
def rbraceChar : Char := Char.ofNat 125

/-- `Uuid::parse_str` dispatching on input length, as the uuid crate does;
yields the 32 hex digits. -/
def parseUuidChars (cs : List Char) : Option (List Char) :=
  if cs.length == 32 then
    if hexGroup cs then some cs else Option.none
  else if cs.length == 36 then
    parseHyphenated cs
  else if cs.length == 38 then
    match cs with
    | c :: rest =>
      if c == lbraceChar && rest.getLast? == some rbraceChar then
        parseHyphenated rest.dropLast
      else Option.none
    | [] => Option.none
  else if cs.length == 45 then
    if cs.take 9 == "urn:uuid:".data then parseHyphenated (cs.drop 9) else Option.none
  else
    Option.none

def dashChar : Char := '-'

/-- Reassemble 32 hex digits into the canonical hyphenated rendering. -/
def hyphenate (h : List Char) : List Char :=
  h.take 8 ++ [dashChar] ++ (h.drop 8).take 4 ++ [dashChar] ++ (h.drop 12).take 4 ++
    [dashChar] ++ (h.drop 16).take 4 ++ [dashChar] ++ h.drop 20

def msgInvalidUuid : String := "Invalid UUID format"

/-- `validate_uuid` from src/utils/uuid.rs; on success yields the canonical
lowercase hyphenated rendering of the identifier. -/
def validate_uuid (s : String) : Except String String :=
  match parseUuidChars s.data with
  | some h => .ok (String.mk (hyphenate (h.map toLowerChar)))
  | Option.none => .error msgInvalidUuid

/-- `validate_bin_id` from src/handlers.rs: `validate_uuid` with the error
mapped to a 400 response. -/
def validate_bin_id (id : String) : HResult String :=
  match validate_uuid id with
  | .ok u => .ok u
  | .error e => .error (.badRequest, e)

/-! ## Header serialization (src/handlers.rs, `process_request_data`)

The code collects the header iterator into a `HashMap<String, String>`
(duplicate names: the later value replaces the earlier one, the existing
key is kept) and serializes it with `serde_json::to_string`.  A Rust
`HashMap` iterates in an unspecified order; the model fixes the
first-insertion order of the keys.  The serialized length, the key set and
the per-key values — everything the code's size check and the claims
observe — are independent of that order. -/

def insertLastWins (m : List (String × String)) (k v : String) : List (String × String) :=
  match m with
  | [] => [(k, v)]
  | (k', v') :: rest =>
    if k' == k then (k', v) :: rest else (k', v') :: insertLastWins rest k v

/-- `collect::<HashMap<_, _>>()` over the header pairs. -/
def collectLastWins (hs : List (String × String)) : List (String × String) :=
  hs.foldl (fun m kv => insertLastWins m kv.1 kv.2) []

def hexDigitChar (n : Nat) : Char :=
  if n < 10 then Char.ofNat (48 + n) else Char.ofNat (87 + n)

/-- serde_json's string escaping. -/
def jsonEscapeChar (c : Char) : List Char :=
  if c == '"' then ['\\', '"']
  else if c == '\\' then ['\\', '\\']
  else if c.toNat < 32 then
    if c.toNat == 8 then ['\\', 'b']
    else if c.toNat == 9 then ['\\', 't']
    else if c.toNat == 10 then ['\\', 'n']
    else if c.toNat == 12 then ['\\', 'f']
    else if c.toNat == 13 then ['\\', 'r']
    else ['\\', 'u', '0', '0', hexDigitChar (c.toNat / 16), hexDigitChar (c.toNat % 16)]
  else [c]

def jsonEscape (s : String) : String := String.mk ((s.data.map jsonEscapeChar).flatten)

def commaStr : String := ","

def encodeEntry (kv : String × String) : String :=
  "\"" ++ jsonEscape kv.1 ++ "\":\"" ++ jsonEscape kv.2 ++ "\""

def encodeJsonObject (l : List (String × String)) : String :=
  "\x7b" ++ String.intercalate commaStr (l.map encodeEntry) ++ "\x7d"

/-- The stored `headers` blob for a captured request. -/
def headersJson (hs : List (String × String)) : String :=
  encodeJsonObject (collectLastWins hs)

/-! ## Capture Store handlers (src/handlers.rs) -/

def msgCheckBinFailed : String := "Failed to check bin existence"
def msgBinNotFound : String := "Bin not found"
def msgBodyTooLarge : String := "Request body exceeds size limit"
def msgHeadersTooLarge : String := "Request headers exceed size limit"
def msgLogged : String := "Request logged"
def msgLogDbError : String := "Bin not found or error logging request"
def msgFetchFailed : String := "Failed to fetch logged requests"
def msgBinDeleted : String := "Bin deleted"
def msgDeleteBinDbError : String := "Bin not found or error deleting Bin"
def msgRequestNotFound : String := "Request not found"
def msgRequestDeleted : String := "Request deleted"
def msgDeleteRequestDbError : String := "Request not found or error deleting request"
def msgClearFailed : String := "Failed to clear bin requests"

/-- `check_bin_exists`: `SELECT COUNT(*) FROM bins WHERE id = ?` bound to
the raw path string; 500 on store failure, 404 when the count is zero. -/
def check_bin_exists (db : DB) (f : Faults) (id : String) : HResult Unit :=
  if f.checkBinExists then .error (.internalError, msgCheckBinFailed)
  else if (db.bins.filter (fun b => b.id == id)).length == 0 then
    .error (.notFound, msgBinNotFound)
  else .ok ()

/-- `ProcessedRequest` from src/handlers.rs. -/
structure ProcessedRequest where
  method : String
  headers_json : String
  body : List Nat
  request_id : String
deriving DecidableEq, Repr

/-- `process_request_data`: reject with 413 if the raw body byte length
exceeds `max_body_size`; serialize the headers; reject with 413 if the
serialized blob's byte length exceeds `max_headers_size`; otherwise return
the processed request carrying a fresh `request_id` (passed in here, the
code draws `Uuid::new_v4()`). -/
def process_request_data (method : String) (headers : List (String × String))
    (bodyBytes : List Nat) (requestId : String) (limits : LimitsConfig) :
    HResult ProcessedRequest :=
  if bodyBytes.length > limits.maxBodySize then
    .error (.payloadTooLarge, msgBodyTooLarge)
  else
    let hj := headersJson headers
    if hj.utf8ByteSize > limits.maxHeadersSize then
      .error (.payloadTooLarge, msgHeadersTooLarge)
    else
      .ok ⟨method, hj, bodyBytes, requestId⟩

/-- `store_request_in_db`: `INSERT INTO requests ...`.  The AUTOINCREMENT
key is `nextRowId`; the `request_id TEXT UNIQUE` column makes the insert
fail on a duplicate `request_id`. -/
def store_request_in_db (db : DB) (f : Faults) (binId : String)
    (rd : ProcessedRequest) (now : Nat) : Except Unit DB :=
  if f.insertRequest then .error ()
  else if db.requests.any (fun r => r.request_id == rd.request_id) then .error ()
  else .ok { db with
    requests := db.requests ++
      [⟨db.nextRowId, binId, rd.request_id, rd.method, rd.headers_json, rd.body, now⟩],
    nextRowId := db.nextRowId + 1 }

/-- `enforce_request_limit`: count the bin's live rows; if the count
exceeds `max_requests_per_bin`, delete the `count − cap` rows with the
smallest AUTOINCREMENT ids among them (`... ORDER BY id ASC LIMIT excess`;
over the ascending-`rowId` model list that subselect is a `take`). -/
def enforce_request_limit (db : DB) (f : Faults) (binId : String) (maxReq : Nat) :
    Except Unit DB :=
  if f.capCount then .error ()
  else
    let count := (db.requests.filter (fun r => r.bin_id == binId)).length
    if count > maxReq then
      if f.capDelete then .error ()
      else
        let excess := count - maxReq
        let victims := ((db.requests.filter (fun r => r.bin_id == binId)).map
          (fun r => r.rowId)).take excess
        .ok { db with requests := (db.requests.filter
          (fun r => !(r.bin_id == binId && victims.contains r.rowId))) }
    else .ok db

/-- `update_last_updated`: `UPDATE bins SET last_updated = ? WHERE id = ?`
(matches no row when no bin has that id, which is not an error). -/
def update_last_updated (db : DB) (f : Faults) (id : String) (now : Nat) :
    Except Unit DB :=
  if f.updateLast then .error ()
  else .ok { db with bins := (db.bins.map
    (fun b => if b.id == id then { b with last_updated := now } else b)) }

/-- Helper for the code's `.ok()` / logged-and-ignored error pattern. -/
def orKeep (r : Except Unit DB) (db : DB) : DB :=
  match r with
  | .ok db' => db'
  | .error _ => db

/-- `log_request` (the capture path): validate the id, check the bin
exists, process the payload, insert the row (store failure is reported
with status 404, "Bin not found or error logging request"), then enforce
the cap (failure logged, not propagated), refresh `last_updated` (`.ok()`,
ignored) and notify the websocket channel (read-only on the registry). -/
def log_request (s : AppState) (f : Faults) (id : String) (method : String)
    (headers : List (String × String)) (bodyBytes : List Nat)
    (requestId : String) (now : Nat) : AppState × HResult String :=
  match validate_bin_id id with
  | .error e => (s, .error e)
  | .ok _ =>
    match check_bin_exists s.db f id with
    | .error e => (s, .error e)
    | .ok _ =>
      match process_request_data method headers bodyBytes requestId s.limits with
      | .error e => (s, .error e)
      | .ok rd =>
        match store_request_in_db s.db f id rd now with
        | .error _ => (s, .error (.notFound, msgLogDbError))
        | .ok db1 =>
          let db2 := orKeep (enforce_request_limit db1 f id s.limits.maxRequestsPerBin) db1
          let db3 := orKeep (update_last_updated db2 f id now) db2
          ({ s with db := db3 }, .ok msgLogged)

/-- `LoggedRequest` from src/models.rs: the columns `inspect_bin` selects. -/
structure LoggedRequest where
  method : String
  headers : String
  body : List Nat
  timestamp : Nat
  request_id : String
deriving DecidableEq, Repr

def RequestRow.toLogged (r : RequestRow) : LoggedRequest :=
  ⟨r.method, r.headers, r.body, r.timestamp, r.request_id⟩

/-- `inspect_bin` (the list path): validate, check existence, then
`SELECT method, headers, body, timestamp, request_id FROM requests WHERE
bin_id = ? ORDER BY id` — over the ascending-`rowId` model list the query
is a filter in list order. -/
def inspect_bin (s : AppState) (f : Faults) (id : String) :
    HResult (List LoggedRequest) :=
  match validate_bin_id id with
  | .error e => .error e
  | .ok _ =>
    match check_bin_exists s.db f id with
    | .error e => .error e
    | .ok _ =>
      if f.fetchRequests then .error (.internalError, msgFetchFailed)
      else .ok ((s.db.requests.filter (fun r => r.bin_id == id)).map RequestRow.toLogged)

/-- `delete_bin`: validate, `DELETE FROM bins WHERE id = ?` bound to the
canonical rendering; store failure is reported with status 404; zero rows
affected is 404; on success `update_last_updated` is called with the raw
path id (the bin row is already gone, so the update matches nothing) and
the broadcast registry is not touched. -/
def delete_bin (s : AppState) (f : Faults) (id : String) (now : Nat) :
    AppState × HResult String :=
  match validate_bin_id id with
  | .error e => (s, .error e)
  | .ok uuid =>
    if f.deleteBinStmt then (s, .error (.notFound, msgDeleteBinDbError))
    else
      let matched := (s.db.bins.filter (fun b => b.id == uuid)).length
      if matched == 0 then (s, .error (.notFound, msgBinNotFound))
      else
        let db1 := { s.db with bins := s.db.bins.filter (fun b => !(b.id == uuid)) }
        let db2 := orKeep (update_last_updated db1 f id now) db1
        ({ s with db := db2 }, .ok msgBinDeleted)

/-- `delete_request`: validate, `DELETE FROM requests WHERE request_id = ?`
bound to the canonical rendering; store failure is reported with status
404; zero rows affected is 404; on success `update_last_updated` is called
with the path id — which is the REQUEST id, so the `UPDATE bins ... WHERE
id = ?` matches a bin only if some bin happens to carry that same id. -/
def delete_request (s : AppState) (f : Faults) (id : String) (now : Nat) :
    AppState × HResult String :=
  match validate_bin_id id with
  | .error e => (s, .error e)
  | .ok uuid =>
    if f.deleteRequestStmt then (s, .error (.notFound, msgDeleteRequestDbError))
    else
      let matched := (s.db.requests.filter (fun r => r.request_id == uuid)).length
      if matched == 0 then (s, .error (.notFound, msgRequestNotFound))
      else
        let db1 := { s.db with requests :=
          (s.db.requests.filter (fun r => !(r.request_id == uuid))) }
        let db2 := orKeep (update_last_updated db1 f id now) db1
        ({ s with db := db2 }, .ok msgRequestDeleted)

/-- `clear_bin_requests`: validate, check existence, `DELETE FROM requests
WHERE bin_id = ?` (raw path id; store failure is 500 here), report the
count removed and refresh `last_updated`. -/
def clear_bin_requests (s : AppState) (f : Faults) (id : String) (now : Nat) :
    AppState × HResult Nat :=
  match validate_bin_id id with
  | .error e => (s, .error e)
  | .ok _ =>
    match check_bin_exists s.db f id with
    | .error e => (s, .error e)
    | .ok _ =>
      if f.clearStmt then (s, .error (.internalError, msgClearFailed))
      else
        let deleted := (s.db.requests.filter (fun r => r.bin_id == id)).length
        let db1 := { s.db with requests :=
          (s.db.requests.filter (fun r => !(r.bin_id == id))) }
        let db2 := orKeep (update_last_updated db1 f id now) db1
        ({ s with db := db2 }, .ok deleted)

/-! ## Broadcast Hub (src/websocket/mod.rs, src/handlers.rs) -/

/-- `handle_socket`'s subscription step: `bin_channels.entry(bin_id)
.or_insert_with(broadcast::channel(100).0)` followed by `.subscribe()` —
get-or-create the channel entry, then attach one more receiver.  Note
there is no identifier validation on this path. -/
def subscribeChannel (channels : List (String × Nat)) (binId : String) :
    List (String × Nat) :=
  if channels.any (fun kv => kv.1 == binId) then
    channels.map (fun kv => if kv.1 == binId then (kv.1, kv.2 + 1) else kv)
  else channels ++ [(binId, 1)]

/-- `ws_handler` / `handle_socket` state effect. -/
def handle_socket (s : AppState) (binId : String) : AppState :=
  { s with binChannels := subscribeChannel s.binChannels binId }

/-- The liveness check used by the cleanup task:
`bin_channels.get(&bin_id).map(|s| s.receiver_count() > 0).unwrap_or(false)`. -/
def hasActiveConnections (channels : List (String × Nat)) (binId : String) : Bool :=
  match channels.find? (fun kv => kv.1 == binId) with
  | some kv => kv.2 > 0
  | Option.none => false

/-- `send_websocket_notification` only publishes when
`bin_channels.get(bin_id)` finds an entry; this is that lookup. -/
def publishFindsChannel (channels : List (String × Nat)) (binId : String) : Bool :=
  channels.any (fun kv => kv.1 == binId)

/-! ## Eviction Scheduler (src/tasks/cleanup.rs) -/

/-- One candidate of the sweep: keep the bin when its channel has a live
receiver; otherwise `DELETE FROM bins WHERE id = ?` (a failed delete is
logged and the sweep continues) and drop the channel entry.  The bin's
request rows are not touched. -/
def cleanupStep (db : DB) (channels : List (String × Nat)) (binId : String)
    (fDelete : Bool) : DB × List (String × Nat) :=
  if hasActiveConnections channels binId then (db, channels)
  else if fDelete then (db, channels)
  else ({ db with bins := db.bins.filter (fun b => !(b.id == binId)) },
        channels.filter (fun kv => !(kv.1 == binId)))

/-- One sweep of `start_cleanup_task`: select the ids of bins with
`last_updated < cutoff` (a failed listing query skips the sweep), then
process each candidate in turn. -/
def cleanupSweep (s : AppState) (cutoff : Nat) (fQuery : Bool) (fDelete : Bool) :
    AppState :=
  if fQuery then s
  else
    let expired := (s.db.bins.filter (fun b => b.last_updated < cutoff)).map
      (fun b => b.id)
    let out := expired.foldl
      (fun (st : DB × List (String × Nat)) binId => cleanupStep st.1 st.2 binId fDelete)
      (s.db, s.binChannels)
    { s with db := out.1, binChannels := out.2 }

/-! ## Observations used by the theorems -/

/-- The bin's live request rows, in table (= insertion) order. -/
def binRequests (db : DB) (binId : String) : List RequestRow :=
  db.requests.filter (fun r => r.bin_id == binId)

/-- The last `n` elements of a list. -/
def takeLast {α : Type} (n : Nat) (l : List α) : List α := l.drop (l.length - n)

/-- Whether a bin row with this id is live. -/
def binExists (db : DB) (id : String) : Bool := db.bins.any (fun b => b.id == id)

/-- Whether a handler result is a PayloadTooLarge rejection. -/
def isPayloadTooLarge {α : Type} : HResult α → Bool
  | .error (.payloadTooLarge, _) => true
  | _ => false

/-- First value bound to `k` in an association list. -/
def lookupVal : List (String × String) → String → Option String
  | [], _ => Option.none
  | (k', v) :: rest, k => if k' == k then some v else lookupVal rest k

/-! ## List lemmas for cap enforcement -/

/-- Deleting the rows whose keys are the first `n` keys of a strictly
increasing list is dropping its first `n` elements. -/
theorem filter_not_take_eq_drop :
    ∀ (l : List RequestRow) (n : Nat),
      l.Pairwise (fun a b => a.rowId < b.rowId) →
      l.filter (fun r => !(((l.map (fun x => x.rowId)).take n).contains r.rowId)) =
        l.drop n := by
  intro l
  induction l with
  | nil => intro n _; simp
  | cons a t ih =>
    intro n hp
    have hlt := (List.pairwise_cons.mp hp).1
    have hpt := (List.pairwise_cons.mp hp).2
    cases n with
    | zero => simp
    | succ m =>
      have hhead : (!((a.rowId :: (t.map (fun x => x.rowId)).take m).contains a.rowId)) = false := by
        simp [List.contains_cons]
      have htail : (t.filter (fun r =>
            !((a.rowId :: (t.map (fun x => x.rowId)).take m).contains r.rowId))) =
          t.filter (fun r => !(((t.map (fun x => x.rowId)).take m).contains r.rowId)) := by
        apply List.filter_congr
        intro r hr
        have hne : ¬(r.rowId == a.rowId) = true := by
          have := hlt r hr
          simp only [beq_iff_eq]
          omega
        simp only [List.contains_cons]
        simp [hne]
      simp only [List.map_cons, List.take_succ_cons, List.drop_succ_cons, List.filter_cons,
        hhead, if_false, Bool.false_eq_true]
      rw [htail, ih m hpt]

/-- Cap enforcement with a healthy store: the bin keeps exactly its most
recent `maxReq` rows (all of them when it holds at most `maxReq`), other
tables and columns untouched. -/
theorem enforce_request_limit_spec (db : DB) (binId : String) (maxReq : Nat)
    (hp : db.requests.Pairwise (fun a b => a.rowId < b.rowId)) :
    ∃ db', enforce_request_limit db Faults.none binId maxReq = .ok db' ∧
      binRequests db' binId = takeLast maxReq (binRequests db binId) ∧
      db'.bins = db.bins ∧ db'.nextRowId = db.nextRowId := by
  unfold enforce_request_limit
  simp only [Faults.none, Bool.false_eq_true, if_false]
  by_cases hgt : (db.requests.filter (fun r => r.bin_id == binId)).length > maxReq
  · simp only [hgt, if_pos]
    refine ⟨_, rfl, ?_, rfl, rfl⟩
    unfold binRequests takeLast
    rw [List.filter_filter]
    have hcongr : db.requests.filter (fun r =>
          (r.bin_id == binId) &&
          !(r.bin_id == binId &&
            (((db.requests.filter (fun r => r.bin_id == binId)).map (fun r => r.rowId)).take
              ((db.requests.filter (fun r => r.bin_id == binId)).length - maxReq)).contains r.rowId)) =
        db.requests.filter (fun r =>
          (!((((db.requests.filter (fun r => r.bin_id == binId)).map (fun r => r.rowId)).take
              ((db.requests.filter (fun r => r.bin_id == binId)).length - maxReq)).contains r.rowId)) &&
          (r.bin_id == binId)) := by
      apply List.filter_congr
      intro r _
      cases hb : (r.bin_id == binId) <;>
        cases hv : (((db.requests.filter (fun r => r.bin_id == binId)).map (fun r => r.rowId)).take
            ((db.requests.filter (fun r => r.bin_id == binId)).length - maxReq)).contains r.rowId <;>
        simp [hb, hv]
    rw [hcongr, ← List.filter_filter]
    exact filter_not_take_eq_drop _ _ (hp.sublist (List.filter_sublist _))
  · simp only [hgt, if_neg, if_false]
    refine ⟨db, rfl, ?_, rfl, rfl⟩
    unfold binRequests takeLast
    have : (db.requests.filter (fun r => r.bin_id == binId)).length - maxReq = 0 := by omega
    rw [this, List.drop_zero]

/-- Inversion: a successful `process_request_data` returns exactly the
processed payload. -/
theorem process_request_data_ok_inv {method : String} {headers : List (String × String)}
    {bodyBytes : List Nat} {requestId : String} {lims : LimitsConfig}
    {rd : ProcessedRequest}
    (h : process_request_data method headers bodyBytes requestId lims = .ok rd) :
    rd = ⟨method, headersJson headers, bodyBytes, requestId⟩ := by
  unfold process_request_data at h
  split at h
  · exact absurd h (by simp)
  · dsimp only at h
    split at h
    · exact absurd h (by simp)
    · injection h with h2
      exact h2.symm

/-- Inversion: a successful insert appends the fresh row and bumps the
AUTOINCREMENT value. -/
theorem store_request_in_db_ok_inv {db : DB} {f : Faults} {binId : String}
    {rd : ProcessedRequest} {now : Nat} {db' : DB}
    (h : store_request_in_db db f binId rd now = .ok db') :
    db' = { db with
      requests := db.requests ++
        [⟨db.nextRowId, binId, rd.request_id, rd.method, rd.headers_json, rd.body, now⟩],
      nextRowId := db.nextRowId + 1 } := by
  unfold store_request_in_db at h
  split at h
  · exact absurd h (by simp)
  · split at h
    · exact absurd h (by simp)
    · injection h with h; exact h.symm

/-- The capture success path: after a successful `log_request` against a
well-formed fault-free store, the target bin holds exactly the most recent
`max_requests_per_bin` elements of "its previous rows plus the freshly
inserted one", whatever the timestamps involved. -/
theorem log_request_ok_binRequests (s : AppState) (id : String) (method : String)
    (headers : List (String × String)) (bodyBytes : List Nat)
    (requestId : String) (now : Nat)
    (hwf : s.db.WF)
    (hok : (log_request s Faults.none id method headers bodyBytes requestId now).2.isOk = true) :
    binRequests (log_request s Faults.none id method headers bodyBytes requestId now).1.db id =
      takeLast s.limits.maxRequestsPerBin
        (binRequests s.db id ++
          [⟨s.db.nextRowId, id, requestId, method, headersJson headers, bodyBytes, now⟩]) := by
  unfold log_request at hok ⊢
  cases hv : validate_bin_id id with
  | error e => simp [hv, Except.isOk, Except.toBool] at hok
  | ok u =>
    dsimp only
    cases hc : check_bin_exists s.db Faults.none id with
    | error e => simp [hv, hc, Except.isOk, Except.toBool] at hok
    | ok unitv =>
      dsimp only
      cases hpr : process_request_data method headers bodyBytes requestId s.limits with
      | error e => simp [hv, hc, hpr, Except.isOk, Except.toBool] at hok
      | ok rd =>
        dsimp only
        cases hst : store_request_in_db s.db Faults.none id rd now with
        | error e => simp [hv, hc, hpr, hst, Except.isOk, Except.toBool] at hok
        | ok db1 =>
          dsimp only
          have hrd := process_request_data_ok_inv hpr
          have hdb1 := store_request_in_db_ok_inv hst
          have hp1 : db1.requests.Pairwise (fun a b => a.rowId < b.rowId) := by
            rw [hdb1]
            refine List.pairwise_append.mpr ⟨hwf.1, List.pairwise_singleton _ _, ?_⟩
            intro x hx y hy
            rw [List.mem_singleton] at hy
            subst hy
            exact hwf.2 x hx
          obtain ⟨db2, he, hbr, _, _⟩ :=
            enforce_request_limit_spec db1 id s.limits.maxRequestsPerBin hp1
          rw [he]
          simp only [orKeep]
          have hfin : binRequests
              (match update_last_updated db2 Faults.none id now with
                | Except.ok db' => db'
                | Except.error _ => db2) id = binRequests db2 id := by
            unfold update_last_updated
            simp [Faults.none, binRequests]
          rw [hfin, hbr]
          have hnew : binRequests db1 id = binRequests s.db id ++
              [⟨s.db.nextRowId, id, requestId, method, headersJson headers, bodyBytes, now⟩] := by
            rw [hdb1, hrd]
            unfold binRequests
            rw [List.filter_append]
            simp
          rw [hnew]

/-! ## Concrete states used by witnesses and counterexamples -/

def binA : String := "11111111-1111-4111-8111-111111111111"
def binB : String := "33333333-3333-4333-8333-333333333333"
def ridR : String := "22222222-2222-4222-8222-222222222222"
def ridS : String := "44444444-4444-4444-8444-444444444444"
def ridT : String := "55555555-5555-4555-8555-555555555555"
def limsW : LimitsConfig := ⟨2, 16, 64⟩
def rowW0 : RequestRow := ⟨0, binA, ridR, "GET", "\x7b\x7d", [97], 1⟩
def rowW1 : RequestRow := ⟨1, binA, ridS, "GET", "\x7b\x7d", [98], 2⟩
def sW : AppState := ⟨⟨[⟨binA, 2⟩], [rowW0, rowW1], 2⟩, [], limsW⟩

/-- C1: a successful capture leaves the bin with exactly the most recent
`max_requests_per_bin` elements of "previous rows plus the fresh insert"
(so with exactly the cap when more than the cap would otherwise remain);
selection is by monotonic insertion sequence (`rowId`), whatever the
wall-clock timestamps stored on the rows. -/
theorem C1_cap_enforcement (s : AppState) (id : String) (method : String)
    (headers : List (String × String)) (bodyBytes : List Nat)
    (requestId : String) (now : Nat)
    (hwf : s.db.WF)
    (hok : (log_request s Faults.none id method headers bodyBytes requestId now).2.isOk = true) :
    binRequests (log_request s Faults.none id method headers bodyBytes requestId now).1.db id =
      takeLast s.limits.maxRequestsPerBin
        (binRequests s.db id ++
          [⟨s.db.nextRowId, id, requestId, method, headersJson headers, bodyBytes, now⟩]) ∧
    ((binRequests s.db id).length + 1 > s.limits.maxRequestsPerBin →
      (binRequests (log_request s Faults.none id method headers bodyBytes requestId now).1.db id).length =
        s.limits.maxRequestsPerBin) := by
  have h := log_request_ok_binRequests s id method headers bodyBytes requestId now hwf hok
  refine ⟨h, fun hgt => ?_⟩
  rw [h]
  unfold takeLast
  rw [List.length_drop, List.length_append, List.length_singleton]
  omega

theorem C1_cap_enforcement_witness :
    sW.db.WF ∧
    (log_request sW Faults.none binA "POST" [] [99] ridT 3).2.isOk = true ∧
    (binRequests (log_request sW Faults.none binA "POST" [] [99] ridT 3).1.db binA =
      takeLast sW.limits.maxRequestsPerBin
        (binRequests sW.db binA ++
          [⟨sW.db.nextRowId, binA, ridT, "POST", headersJson [], [99], 3⟩]) ∧
    ((binRequests sW.db binA).length + 1 > sW.limits.maxRequestsPerBin →
      (binRequests (log_request sW Faults.none binA "POST" [] [99] ridT 3).1.db binA).length =
        sW.limits.maxRequestsPerBin)) :=
  ⟨by decide, by decide,
    C1_cap_enforcement sW binA "POST" [] [99] ridT 3 (by decide) (by decide)⟩

/-- With a healthy store the existence check is exactly a lookup on the
`bins` table. -/
theorem check_bin_exists_none (db : DB) (id : String) :
    check_bin_exists db Faults.none id =
      (if binExists db id = true then .ok () else .error (.notFound, msgBinNotFound)) := by
  unfold check_bin_exists binExists
  simp only [Faults.none, Bool.false_eq_true, if_false]
  by_cases h : ∃ b ∈ db.bins, (b.id == id) = true
  · have h1 : db.bins.any (fun b => b.id == id) = true := List.any_eq_true.mpr h
    have h2 : ((db.bins.filter (fun b => b.id == id)).length == 0) = false := by
      rw [beq_eq_false_iff_ne]
      intro hlen
      rw [List.length_eq_zero, List.filter_eq_nil_iff] at hlen
      obtain ⟨b, hb, hp⟩ := h
      exact (hlen b hb) hp
    rw [h1, h2]
    simp
  · have h1 : db.bins.any (fun b => b.id == id) = false := by
      rw [← Bool.not_eq_true, List.any_eq_true]
      exact h
    have h2 : ((db.bins.filter (fun b => b.id == id)).length == 0) = true := by
      rw [beq_iff_eq, List.length_eq_zero, List.filter_eq_nil_iff]
      intro b hb hp
      exact h ⟨b, hb, hp⟩
    rw [h1, h2]
    simp

/-- C3: for a well-formed identifier, `inspect_bin` against a healthy
store rejects a non-existent bin with NotFound, and for an existing bin
returns exactly the bin's live rows projected to `LoggedRequest`, taken in
table order — which is strictly ascending in the monotonic insertion
sequence `rowId`, independently of the timestamps on the rows. -/
theorem C3_list_order (s : AppState) (id : String) (u : String)
    (hwf : s.db.WF) (hval : validate_bin_id id = .ok u) :
    (binExists s.db id = false →
      inspect_bin s Faults.none id = .error (.notFound, msgBinNotFound)) ∧
    (binExists s.db id = true →
      inspect_bin s Faults.none id =
        .ok ((binRequests s.db id).map RequestRow.toLogged) ∧
      (binRequests s.db id).Pairwise (fun a b => a.rowId < b.rowId)) := by
  constructor
  · intro hne
    unfold inspect_bin
    rw [hval]
    dsimp only
    rw [check_bin_exists_none, hne]
    simp
  · intro hex
    refine ⟨?_, ?_⟩
    · unfold inspect_bin
      rw [hval]
      dsimp only
      rw [check_bin_exists_none, hex]
      simp [Faults.none, binRequests]
    · unfold binRequests
      exact hwf.1.sublist (List.filter_sublist _)

theorem C3_list_order_witness :
    sW.db.WF ∧ validate_bin_id binA = .ok binA ∧
    ((binExists sW.db binA = false →
      inspect_bin sW Faults.none binA = .error (.notFound, msgBinNotFound)) ∧
    (binExists sW.db binA = true →
      inspect_bin sW Faults.none binA =
        .ok ((binRequests sW.db binA).map RequestRow.toLogged) ∧
      (binRequests sW.db binA).Pairwise (fun a b => a.rowId < b.rowId))) :=
  ⟨by decide, rfl, C3_list_order sW binA binA (by decide) rfl⟩

/-- A `last_updated` refresh (successful or failed) never touches the
`requests` table. -/
theorem orKeep_update_requests (dbx : DB) (f : Faults) (i : String) (n : Nat) :
    (orKeep (update_last_updated dbx f i n) dbx).requests = dbx.requests := by
  unfold orKeep update_last_updated
  by_cases hf : f.updateLast = true <;> simp [hf]

/-- A `last_updated` refresh keeps every bin's `id`, so it preserves the
absence of any given id. -/
theorem orKeep_update_filter_nil (dbx : DB) (f : Faults) (i : String) (n : Nat)
    (u : String) (h : dbx.bins.filter (fun b => b.id == u) = []) :
    (orKeep (update_last_updated dbx f i n) dbx).bins.filter (fun b => b.id == u) = [] := by
  unfold orKeep update_last_updated
  by_cases hf : f.updateLast = true
  · simp [hf, h]
  · simp only [hf, Bool.false_eq_true, if_false]
    rw [List.filter_eq_nil_iff] at h ⊢
    intro b hb
    rw [List.mem_map] at hb
    obtain ⟨a, ha, rfl⟩ := hb
    have hid : ((if (a.id == i) = true then { a with last_updated := n } else a) : BinRow).id
        = a.id := by
      by_cases hc : (a.id == i) = true <;> simp [hc]
    show ¬(((if (a.id == i) = true then { a with last_updated := n } else a) : BinRow).id == u) = true
    rw [hid]
    exact h a ha

/-- One sweep step never touches the `requests` table. -/
theorem cleanupStep_requests (db : DB) (ch : List (String × Nat)) (b : String)
    (fd : Bool) : (cleanupStep db ch b fd).1.requests = db.requests := by
  unfold cleanupStep
  by_cases h1 : hasActiveConnections ch b = true <;> by_cases h2 : fd = true <;>
    simp [h1, h2]

/-- The whole sweep fold never touches the `requests` table. -/
theorem cleanupFold_requests :
    ∀ (cands : List String) (st : DB × List (String × Nat)) (fd : Bool),
      (cands.foldl (fun st binId => cleanupStep st.1 st.2 binId fd) st).1.requests =
        st.1.requests := by
  intro cands
  induction cands with
  | nil => intro st fd; rfl
  | cons c rest ih =>
    intro st fd
    rw [List.foldl_cons, ih]
    exact cleanupStep_requests _ _ _ _

def sC2 : AppState := ⟨⟨[⟨binA, 0⟩], [rowW0], 1⟩, [], limsW⟩

/-- C2 fails on the code: deleting bin `binA` succeeds, yet its captured
request row is still in the `requests` table afterwards (no cascade, no
explicit delete of the owned rows). -/
theorem C2_counterexample :
    (delete_bin sC2 Faults.none binA 9).2 = .ok msgBinDeleted ∧
    (delete_bin sC2 Faults.none binA 9).1.db.requests.filter
      (fun r => r.bin_id == binA) = [rowW0] :=
  ⟨rfl, rfl⟩

/-- C2 amended: `delete_bin` (any outcome) and the cleanup sweep leave the
`requests` table exactly as it was — owned rows are orphaned, not deleted —
while a successful `delete_bin` does remove the bin row itself. -/
theorem C2_bin_delete_requests (s : AppState) (f : Faults) (id : String) (now : Nat)
    (cutoff : Nat) (fq fd : Bool) :
    (delete_bin s f id now).1.db.requests = s.db.requests ∧
    (cleanupSweep s cutoff fq fd).db.requests = s.db.requests ∧
    (∀ u, validate_bin_id id = .ok u →
      (delete_bin s f id now).2 = .ok msgBinDeleted →
      (delete_bin s f id now).1.db.bins.filter (fun b => b.id == u) = []) := by
  refine ⟨?_, ?_, ?_⟩
  · unfold delete_bin
    cases hv : validate_bin_id id with
    | error e => rfl
    | ok u =>
      dsimp only
      by_cases hf : f.deleteBinStmt = true
      · simp [hf]
      · simp only [hf, Bool.false_eq_true, if_false]
        by_cases hm : (((s.db.bins.filter (fun b => b.id == u)).length == 0) = true)
        · simp [hm]
        · simp only [hm, Bool.false_eq_true, if_false]
          exact orKeep_update_requests _ _ _ _
  · unfold cleanupSweep
    by_cases hq : fq = true
    · simp [hq]
    · simp only [hq, Bool.false_eq_true, if_false]
      exact cleanupFold_requests _ _ _
  · intro u hu hsucc
    unfold delete_bin at hsucc ⊢
    rw [hu] at hsucc ⊢
    dsimp only at hsucc ⊢
    by_cases hf : f.deleteBinStmt = true
    · simp [hf] at hsucc
    · simp only [hf, Bool.false_eq_true, if_false] at hsucc ⊢
      by_cases hm : (((s.db.bins.filter (fun b => b.id == u)).length == 0) = true)
      · simp [hm] at hsucc
      · simp only [hm, Bool.false_eq_true, if_false] at hsucc ⊢
        apply orKeep_update_filter_nil
        rw [List.filter_filter, List.filter_eq_nil_iff]
        intro b _
        by_cases hb : (b.id == u) = true <;> simp [hb]

theorem C2_bin_delete_requests_witness :
    (delete_bin sC2 Faults.none binA 9).1.db.requests = sC2.db.requests ∧
    (delete_bin sC2 Faults.none binA 9).1.db.bins.filter (fun b => b.id == binA) = [] :=
  ⟨(C2_bin_delete_requests sC2 Faults.none binA 9 0 false false).1,
   (C2_bin_delete_requests sC2 Faults.none binA 9 0 false false).2.2 binA rfl rfl⟩

/-- C4: evaluation at the failing input.  `sC2` holds bin `binA`
(`last_updated = 0`) owning the request `ridR`.  `delete_request ridR` at
time 42 succeeds and removes the row — but the owning bin's
`last_updated` is still 0, because the code passes the REQUEST id to
`update_last_updated`, whose `UPDATE bins ... WHERE id = ?` then matches
no bin row.  A second delete of the same id is NotFound. -/
theorem C4_delete_request_refresh_is_noop :
    (delete_request sC2 Faults.none ridR 42).2 = .ok msgRequestDeleted ∧
    (delete_request sC2 Faults.none ridR 42).1.db.requests = [] ∧
    (delete_request sC2 Faults.none ridR 42).1.db.bins = [⟨binA, 0⟩] ∧
    (delete_request (delete_request sC2 Faults.none ridR 42).1 Faults.none ridR 43).2 =
      .error (.notFound, msgRequestNotFound) :=
  ⟨rfl, rfl, rfl, rfl⟩

/-- C10: `delete_bin` never writes the broadcast registry — the channel
entry and its subscribers survive an explicit bin deletion, so liveness
and the publish lookup for that bin are exactly what they were before. -/
theorem C10_delete_bin_channel_frame (s : AppState) (f : Faults) (id : String)
    (now : Nat) (b : String) :
    (delete_bin s f id now).1.binChannels = s.binChannels ∧
    hasActiveConnections (delete_bin s f id now).1.binChannels b =
      hasActiveConnections s.binChannels b ∧
    publishFindsChannel (delete_bin s f id now).1.binChannels b =
      publishFindsChannel s.binChannels b := by
  have hch : (delete_bin s f id now).1.binChannels = s.binChannels := by
    unfold delete_bin
    cases hv : validate_bin_id id with
    | error e => rfl
    | ok u =>
      dsimp only
      by_cases hf : f.deleteBinStmt = true
      · simp [hf]
      · simp only [hf, Bool.false_eq_true, if_false]
        by_cases hm : (((s.db.bins.filter (fun b => b.id == u)).length == 0) = true)
        · simp [hm]
        · simp only [hm, Bool.false_eq_true, if_false]
  exact ⟨hch, by rw [hch], by rw [hch]⟩

def s8 : AppState := ⟨⟨[], [], 0⟩, [], limsW⟩

/-- C8 fails as stated for `subscribe`: the websocket path performs no
identifier validation — a malformed id is not rejected with
InvalidIdentifier, and the registry is mutated with the malformed key. -/
theorem C8_counterexample :
    validate_uuid "not-a-uuid" = .error msgInvalidUuid ∧
    (handle_socket s8 "not-a-uuid").binChannels = [("not-a-uuid", 1)] :=
  ⟨rfl, rfl⟩

/-- C8 amended: the five store operations (capture, list, clear,
delete_request, delete_bin) validate the caller-supplied identifier first
and reject a malformed one with the InvalidIdentifier (400) error before
any mutation — the returned state is the input state — while the
subscribe path does not validate at all and registers a channel under the
malformed key. -/
theorem C8_validation_before_mutation (s : AppState) (f : Faults) (id : String)
    (method : String) (headers : List (String × String)) (bodyBytes : List Nat)
    (requestId : String) (now : Nat) (e : String)
    (hbad : validate_uuid id = .error e) :
    log_request s f id method headers bodyBytes requestId now = (s, .error (.badRequest, e)) ∧
    inspect_bin s f id = .error (.badRequest, e) ∧
    clear_bin_requests s f id now = (s, .error (.badRequest, e)) ∧
    delete_bin s f id now = (s, .error (.badRequest, e)) ∧
    delete_request s f id now = (s, .error (.badRequest, e)) ∧
    handle_socket s id = { s with binChannels := subscribeChannel s.binChannels id } := by
  have hv : validate_bin_id id = .error (.badRequest, e) := by
    unfold validate_bin_id
    rw [hbad]
  refine ⟨?_, ?_, ?_, ?_, ?_, rfl⟩
  · unfold log_request; rw [hv]
  · unfold inspect_bin; rw [hv]
  · unfold clear_bin_requests; rw [hv]
  · unfold delete_bin; rw [hv]
  · unfold delete_request; rw [hv]

theorem C8_validation_before_mutation_witness :
    validate_uuid "not-a-uuid" = .error msgInvalidUuid ∧
    inspect_bin s8 Faults.none "not-a-uuid" = .error (.badRequest, msgInvalidUuid) ∧
    delete_bin s8 Faults.none "not-a-uuid" 0 = (s8, .error (.badRequest, msgInvalidUuid)) :=
  ⟨rfl,
   (C8_validation_before_mutation s8 Faults.none "not-a-uuid" "GET" [] [] ridR 0
     msgInvalidUuid rfl).2.1,
   (C8_validation_before_mutation s8 Faults.none "not-a-uuid" "GET" [] [] ridR 0
     msgInvalidUuid rfl).2.2.2.1⟩

/-- A healthy existence check succeeds exactly on live bins (any fault
oracle whose `checkBinExists` statement works). -/
theorem check_bin_exists_ok_of_exists (db : DB) (f : Faults) (id : String)
    (hf : f.checkBinExists = false) (hex : binExists db id = true) :
    check_bin_exists db f id = .ok () := by
  unfold check_bin_exists
  rw [hf]
  simp only [Bool.false_eq_true, if_false]
  unfold binExists at hex
  rw [List.any_eq_true] at hex
  obtain ⟨b, hb, hp⟩ := hex
  have h2 : ((db.bins.filter (fun b => b.id == id)).length == 0) = false := by
    rw [beq_eq_false_iff_ne]
    intro hlen
    rw [List.length_eq_zero, List.filter_eq_nil_iff] at hlen
    exact (hlen b hb) hp
  rw [h2]
  simp

/-- C9 fails as stated: a backing-store failure of the bin DELETE
statement is reported to the caller with the NotFound status, not with a
storage-error status distinct from NotFound. -/
theorem C9_counterexample :
    (delete_bin sC2 { Faults.none with deleteBinStmt := true } binA 5).2 =
      .error (.notFound, msgDeleteBinDbError) :=
  rfl

/-- C9 amended: a backing-store failure of the existence check or of the
list fetch surfaces as a 500 (a status distinct from NotFound), but a
failure of the request INSERT or of either DELETE statement is reported
with the NotFound (404) status, conflated with the missing-row case. -/
theorem C9_storage_failure_statuses (s : AppState) (id u : String) (now : Nat)
    (method : String) (headers : List (String × String)) (bodyBytes : List Nat)
    (requestId : String)
    (hval : validate_bin_id id = .ok u) :
    (log_request s { Faults.none with checkBinExists := true } id method headers
        bodyBytes requestId now).2 = .error (.internalError, msgCheckBinFailed) ∧
    (binExists s.db id = true →
      inspect_bin s { Faults.none with fetchRequests := true } id =
        .error (.internalError, msgFetchFailed)) ∧
    (binExists s.db id = true →
      ¬ bodyBytes.length > s.limits.maxBodySize →
      ¬ (headersJson headers).utf8ByteSize > s.limits.maxHeadersSize →
      (log_request s { Faults.none with insertRequest := true } id method headers
          bodyBytes requestId now).2 = .error (.notFound, msgLogDbError)) ∧
    (delete_bin s { Faults.none with deleteBinStmt := true } id now).2 =
      .error (.notFound, msgDeleteBinDbError) ∧
    (delete_request s { Faults.none with deleteRequestStmt := true } id now).2 =
      .error (.notFound, msgDeleteRequestDbError) := by
  refine ⟨?_, ?_, ?_, ?_, ?_⟩
  · unfold log_request
    rw [hval]
    dsimp only
    unfold check_bin_exists
    simp [Faults.none]
  · intro hex
    unfold inspect_bin
    rw [hval]
    dsimp only
    rw [check_bin_exists_ok_of_exists _ _ _ (by simp [Faults.none]) hex]
    dsimp only
    simp [Faults.none]
  · intro hex hbody hhead
    unfold log_request
    rw [hval]
    dsimp only
    rw [check_bin_exists_ok_of_exists _ _ _ (by simp [Faults.none]) hex]
    dsimp only
    have hpr : process_request_data method headers bodyBytes requestId s.limits =
        .ok ⟨method, headersJson headers, bodyBytes, requestId⟩ := by
      unfold process_request_data
      rw [if_neg hbody]
      dsimp only
      rw [if_neg hhead]
    rw [hpr]
    dsimp only
    unfold store_request_in_db
    simp [Faults.none]
  · unfold delete_bin
    rw [hval]
    dsimp only
    simp [Faults.none]
  · unfold delete_request
    rw [hval]
    dsimp only
    simp [Faults.none]

theorem C9_storage_failure_statuses_witness :
    (log_request sC2 { Faults.none with insertRequest := true } binA "GET" [] []
        ridS 7).2 = .error (.notFound, msgLogDbError) ∧
    (delete_request sC2 { Faults.none with deleteRequestStmt := true } binA 7).2 =
      .error (.notFound, msgDeleteRequestDbError) :=
  ⟨(C9_storage_failure_statuses sC2 binA binA 7 "GET" [] [] ridS rfl).2.2.1
      (by decide) (by decide) (by decide),
   (C9_storage_failure_statuses sC2 binA binA 7 "GET" [] [] ridS rfl).2.2.2.2⟩

/-! ## Last-write-wins lemmas for the headers map -/

theorem lookupVal_append (l1 l2 : List (String × String)) (k : String) :
    lookupVal (l1 ++ l2) k = (lookupVal l1 k).or (lookupVal l2 k) := by
  induction l1 with
  | nil => simp [lookupVal, Option.or]
  | cons kv rest ih =>
    obtain ⟨a, v⟩ := kv
    rw [List.cons_append]
    by_cases h : (a == k) = true
    · simp [lookupVal, h, Option.or]
    · simp [lookupVal, h, ih]

theorem lookupVal_insertLastWins (m : List (String × String)) (k v k' : String) :
    lookupVal (insertLastWins m k v) k' =
      if (k == k') = true then some v else lookupVal m k' := by
  induction m with
  | nil =>
    unfold insertLastWins lookupVal
    rfl
  | cons kv rest ih =>
    obtain ⟨a, bv⟩ := kv
    unfold insertLastWins
    by_cases hak : (a == k) = true
    · simp only [hak, if_true]
      by_cases hak' : (a == k') = true
      · have h1 : (k == k') = true := by
          rw [beq_iff_eq] at hak hak' ⊢
          rw [← hak, hak']
        simp [lookupVal, hak', h1]
      · have h1 : (k == k') = false := by
          rw [beq_iff_eq] at hak hak'
          rw [beq_eq_false_iff_ne, ← hak]
          exact hak'
        simp [lookupVal, hak', h1]
    · simp only [hak, Bool.false_eq_true, if_false]
      by_cases hak' : (a == k') = true
      · have h1 : (k == k') = false := by
          rw [beq_iff_eq] at hak hak'
          rw [beq_eq_false_iff_ne]
          intro hkk
          exact hak (hak'.trans hkk.symm)
        simp [lookupVal, hak', h1]
      · simp [lookupVal, hak', ih]

theorem lookupVal_collect_go :
    ∀ (hs : List (String × String)) (m : List (String × String)) (k : String),
      lookupVal (hs.foldl (fun m kv => insertLastWins m kv.1 kv.2) m) k =
        (lookupVal hs.reverse k).or (lookupVal m k) := by
  intro hs
  induction hs with
  | nil => intro m k; simp [lookupVal, Option.or]
  | cons kv rest ih =>
    intro m k
    obtain ⟨k0, v0⟩ := kv
    rw [List.foldl_cons, ih, List.reverse_cons, lookupVal_append]
    rw [lookupVal_insertLastWins]
    cases hrev : lookupVal rest.reverse k with
    | some w => simp [Option.or]
    | none =>
      by_cases h0 : (k0 == k) = true <;> simp [lookupVal, h0, Option.or]

/-- C5: the stored headers blob is the serialization of the map obtained
by collecting the header pairs with last-write-wins on duplicate names
(the model fixes first-insertion key order; a Rust `HashMap` iterates in
an unspecified order, and neither the per-key values nor the blob's length
depend on it): looking up any name in the collected map yields the LAST
value bound to that name in the capture input. -/
theorem C5_headers_last_write_wins (method : String) (headers : List (String × String))
    (bodyBytes : List Nat) (requestId : String) (lims : LimitsConfig)
    (rd : ProcessedRequest)
    (hok : process_request_data method headers bodyBytes requestId lims = .ok rd) :
    rd.headers_json = encodeJsonObject (collectLastWins headers) ∧
    ∀ k, lookupVal (collectLastWins headers) k = lookupVal headers.reverse k := by
  constructor
  · rw [process_request_data_ok_inv hok]
    rfl
  · intro k
    unfold collectLastWins
    rw [lookupVal_collect_go]
    cases h : lookupVal headers.reverse k <;> simp [lookupVal, Option.or]

theorem C5_headers_last_write_wins_witness :
    (⟨"GET", headersJson [("a", "1"), ("a", "2")], [], ridR⟩
        : ProcessedRequest).headers_json =
      encodeJsonObject (collectLastWins [("a", "1"), ("a", "2")]) ∧
    lookupVal (collectLastWins [("a", "1"), ("a", "2")]) "a" =
      lookupVal ([("a", "1"), ("a", "2")] : List (String × String)).reverse "a" :=
  ⟨(C5_headers_last_write_wins "GET" [("a", "1"), ("a", "2")] [] ridR limsW _ rfl).1,
   (C5_headers_last_write_wins "GET" [("a", "1"), ("a", "2")] [] ridR limsW _ rfl).2 "a"⟩

/-- C6: a capture is rejected with PayloadTooLarge exactly when the raw
body byte length exceeds `max_body_size` or the serialized headers blob
exceeds `max_headers_size` (so a payload exactly at a limit passes the
size checks and one byte over does not); both checks happen in
`process_request_data`, before any insert, and every failing capture —
this one included — returns the state unchanged: no partial write. -/
theorem C6_payload_limits (method : String) (headers : List (String × String))
    (bodyBytes : List Nat) (requestId : String) (lims : LimitsConfig) :
    (isPayloadTooLarge (process_request_data method headers bodyBytes requestId lims) = true ↔
      bodyBytes.length > lims.maxBodySize ∨
        (headersJson headers).utf8ByteSize > lims.maxHeadersSize) ∧
    (¬(bodyBytes.length > lims.maxBodySize ∨
        (headersJson headers).utf8ByteSize > lims.maxHeadersSize) →
      process_request_data method headers bodyBytes requestId lims =
        .ok ⟨method, headersJson headers, bodyBytes, requestId⟩) ∧
    (∀ (s : AppState) (f : Faults) (id : String) (now : Nat) (e : HStatus × String),
      (log_request s f id method headers bodyBytes requestId now).2 = .error e →
      (log_request s f id method headers bodyBytes requestId now).1 = s) := by
  refine ⟨?_, ?_, ?_⟩
  · unfold process_request_data
    by_cases h1 : bodyBytes.length > lims.maxBodySize
    · simp [h1, isPayloadTooLarge]
    · dsimp only
      by_cases h2 : (headersJson headers).utf8ByteSize > lims.maxHeadersSize
      · simp [h1, h2, isPayloadTooLarge]
      · simp [h1, h2, isPayloadTooLarge]
  · intro hnot
    rw [not_or] at hnot
    unfold process_request_data
    rw [if_neg hnot.1]
    dsimp only
    rw [if_neg hnot.2]
  · intro s f id now e herr
    unfold log_request at herr ⊢
    cases hv : validate_bin_id id with
    | error e2 => rfl
    | ok u =>
      dsimp only
      cases hc : check_bin_exists s.db f id with
      | error e2 => rfl
      | ok unitv =>
        dsimp only
        cases hpr : process_request_data method headers bodyBytes requestId s.limits with
        | error e2 => rfl
        | ok rd =>
          dsimp only
          cases hst : store_request_in_db s.db f id rd now with
          | error e2 => rfl
          | ok db1 => simp [hv, hc, hpr, hst] at herr

theorem C6_payload_limits_witness :
    process_request_data "POST" [] (List.replicate 16 120) ridT limsW =
      .ok ⟨"POST", headersJson [], List.replicate 16 120, ridT⟩ ∧
    isPayloadTooLarge
      (process_request_data "POST" [] (List.replicate 17 120) ridT limsW) = true ∧
    (log_request sW Faults.none binA "POST" [] (List.replicate 17 120) ridT 3).1 = sW :=
  ⟨(C6_payload_limits "POST" [] (List.replicate 16 120) ridT limsW).2.1 (by decide),
   (C6_payload_limits "POST" [] (List.replicate 17 120) ridT limsW).1.mpr (by decide),
   (C6_payload_limits "POST" [] (List.replicate 17 120) ridT limsW).2.2 sW Faults.none
     binA 3 (.payloadTooLarge, msgBodyTooLarge) rfl⟩

/-! ## Sweep lemmas for liveness-gated eviction -/

/-- Removing another bin's channel entry does not change this bin's
liveness. -/
theorem hasActive_filter_ne (ch : List (String × Nat)) (b c : String) (hne : b ≠ c) :
    hasActiveConnections (ch.filter (fun kv => !(kv.1 == c))) b =
      hasActiveConnections ch b := by
  induction ch with
  | nil => rfl
  | cons kv rest ih =>
    by_cases hc : (kv.1 == c) = true
    · have hb : (kv.1 == b) = false := by
        rw [beq_iff_eq] at hc
        rw [beq_eq_false_iff_ne, hc]
        exact fun hh => hne hh.symm
      rw [List.filter_cons]
      simp only [hc, Bool.not_true, Bool.false_eq_true, if_false]
      unfold hasActiveConnections
      rw [List.find?_cons_of_neg _ (by simp [hb])]
      exact ih
    · rw [List.filter_cons]
      simp only [hc, Bool.not_false, if_true]
      by_cases hb : (kv.1 == b) = true
      · unfold hasActiveConnections
        rw [List.find?_cons_of_pos _ (by simp [hb]), List.find?_cons_of_pos _ (by simp [hb])]
      · unfold hasActiveConnections
        rw [List.find?_cons_of_neg _ (by simp [hb]), List.find?_cons_of_neg _ (by simp [hb])]
        exact ih

/-- Filtering a list cannot make a previously empty sub-selection
non-empty. -/
theorem filter_nil_of_filter_nil {α : Type} (l : List α) (p q : α → Bool)
    (h : l.filter q = []) : (l.filter p).filter q = [] := by
  rw [List.filter_eq_nil_iff] at h ⊢
  intro x hx
  exact h x (List.mem_of_mem_filter hx)

/-- A bin with no channel entry has no liveness. -/
theorem hasActive_false_of_filter_nil (ch : List (String × Nat)) (b : String)
    (h : ch.filter (fun kv => kv.1 == b) = []) :
    hasActiveConnections ch b = false := by
  unfold hasActiveConnections
  rw [List.filter_eq_nil_iff] at h
  have hfind : ch.find? (fun kv => kv.1 == b) = Option.none := by
    rw [List.find?_eq_none]
    exact h
  rw [hfind]

/-- Once a bin row and its channel entry are gone, the rest of the sweep
cannot bring them back. -/
theorem cleanupFold_preserves_gone (fd : Bool) :
    ∀ (cands : List String) (st : DB × List (String × Nat)) (b : String),
      st.1.bins.filter (fun r => r.id == b) = [] →
      st.2.filter (fun kv => kv.1 == b) = [] →
      ((cands.foldl (fun st binId => cleanupStep st.1 st.2 binId fd) st).1.bins.filter
          (fun r => r.id == b) = [] ∧
        (cands.foldl (fun st binId => cleanupStep st.1 st.2 binId fd) st).2.filter
          (fun kv => kv.1 == b) = []) := by
  intro cands
  induction cands with
  | nil => intro st b h1 h2; exact ⟨h1, h2⟩
  | cons c rest ih =>
    intro st b h1 h2
    rw [List.foldl_cons]
    apply ih
    · unfold cleanupStep
      by_cases ha : hasActiveConnections st.2 c = true
      · simp only [ha, if_true]
        exact h1
      · by_cases hf : fd = true
        · simp only [ha, Bool.false_eq_true, if_false, hf, if_true]
          exact h1
        · simp only [ha, Bool.false_eq_true, if_false, hf]
          exact filter_nil_of_filter_nil _ _ _ h1
    · unfold cleanupStep
      by_cases ha : hasActiveConnections st.2 c = true
      · simp only [ha, if_true]
        exact h2
      · by_cases hf : fd = true
        · simp only [ha, Bool.false_eq_true, if_false, hf, if_true]
          exact h2
        · simp only [ha, Bool.false_eq_true, if_false, hf]
          exact filter_nil_of_filter_nil _ _ _ h2

/-- A bin whose channel has a live receiver survives the whole sweep fold,
and its channel keeps its live receiver. -/
theorem cleanupFold_keeps_live (fd : Bool) :
    ∀ (cands : List String) (st : DB × List (String × Nat)) (b : String),
      hasActiveConnections st.2 b = true →
      (hasActiveConnections
          (cands.foldl (fun st binId => cleanupStep st.1 st.2 binId fd) st).2 b = true ∧
        (cands.foldl (fun st binId => cleanupStep st.1 st.2 binId fd) st).1.bins.filter
          (fun r => r.id == b) = st.1.bins.filter (fun r => r.id == b)) := by
  intro cands
  induction cands with
  | nil => intro st b h; exact ⟨h, rfl⟩
  | cons c rest ih =>
    intro st b h
    rw [List.foldl_cons]
    by_cases ha : hasActiveConnections st.2 c = true
    · have hstep : cleanupStep st.1 st.2 c fd = (st.1, st.2) := by
        unfold cleanupStep
        simp [ha]
      rw [hstep]
      exact ih st b h
    · by_cases hf : fd = true
      · have hstep : cleanupStep st.1 st.2 c fd = (st.1, st.2) := by
          unfold cleanupStep
          simp [ha, hf]
        rw [hstep]
        exact ih st b h
      · have hne : b ≠ c := by
          intro he
          rw [he] at h
          rw [h] at ha
          exact ha rfl
        have hstep : cleanupStep st.1 st.2 c fd =
            ({ st.1 with bins := (st.1.bins.filter (fun r => !(r.id == c))) },
             st.2.filter (fun kv => !(kv.1 == c))) := by
          unfold cleanupStep
          simp [ha, hf]
        rw [hstep]
        have hch : hasActiveConnections (st.2.filter (fun kv => !(kv.1 == c))) b = true := by
          rw [hasActive_filter_ne _ _ _ hne]
          exact h
        obtain ⟨ih1, ih2⟩ := ih
          ({ st.1 with bins := (st.1.bins.filter (fun r => !(r.id == c))) },
            st.2.filter (fun kv => !(kv.1 == c))) b hch
        refine ⟨ih1, ?_⟩
        rw [ih2]
        dsimp only
        rw [List.filter_filter]
        apply List.filter_congr
        intro x _
        by_cases hx : (x.id == b) = true
        · have hxc : (x.id == c) = false := by
            rw [beq_iff_eq] at hx
            rw [beq_eq_false_iff_ne, hx]
            exact hne
          simp [hx, hxc]
        · simp [hx]

/-- A candidate bin with no live receiver is removed by the sweep fold:
its bin row and its channel entry are both gone afterwards. -/
theorem cleanupFold_removes :
    ∀ (cands : List String) (st : DB × List (String × Nat)) (b : String),
      b ∈ cands →
      hasActiveConnections st.2 b = false →
      ((cands.foldl (fun st binId => cleanupStep st.1 st.2 binId false) st).1.bins.filter
          (fun r => r.id == b) = [] ∧
        (cands.foldl (fun st binId => cleanupStep st.1 st.2 binId false) st).2.filter
          (fun kv => kv.1 == b) = []) := by
  intro cands
  induction cands with
  | nil => intro st b hb; exact absurd hb (List.not_mem_nil b)
  | cons c rest ih =>
    intro st b hb hfalse
    rw [List.foldl_cons]
    by_cases hcb : c = b
    · subst hcb
      have hstep : cleanupStep st.1 st.2 c false =
          ({ st.1 with bins := (st.1.bins.filter (fun r => !(r.id == c))) },
           st.2.filter (fun kv => !(kv.1 == c))) := by
        unfold cleanupStep
        simp [hfalse]
      rw [hstep]
      apply cleanupFold_preserves_gone
      · dsimp only
        rw [List.filter_filter, List.filter_eq_nil_iff]
        intro x _
        by_cases hx : (x.id == c) = true <;> simp [hx]
      · dsimp only
        rw [List.filter_filter, List.filter_eq_nil_iff]
        intro x _
        by_cases hx : (x.1 == c) = true <;> simp [hx]
    · have hbrest : b ∈ rest := by
        rcases List.mem_cons.mp hb with h | h
        · exact absurd h.symm hcb
        · exact h
      have hpres : hasActiveConnections (cleanupStep st.1 st.2 c false).2 b = false := by
        unfold cleanupStep
        by_cases h1 : hasActiveConnections st.2 c = true
        · simp only [h1, if_true]
          exact hfalse
        · simp only [h1, Bool.false_eq_true, if_false]
          rw [hasActive_filter_ne _ _ _ (fun he => hcb he.symm)]
          exact hfalse
      exact ih _ b hbrest hpres

/-- C7: a bin whose broadcast channel has at least one live receiver is
never deleted by a sweep, whatever its `last_updated`; a bin past the
cutoff with no live receiver is deleted by a (healthy) sweep and its
channel entry is discarded with it. -/
theorem C7_liveness_overrides_expiry (s : AppState) (cutoff : Nat) (fq fd : Bool)
    (b : String) :
    (hasActiveConnections s.binChannels b = true →
      (cleanupSweep s cutoff fq fd).db.bins.filter (fun r => r.id == b) =
        s.db.bins.filter (fun r => r.id == b)) ∧
    (∀ row ∈ s.db.bins, row.id = b → row.last_updated < cutoff →
      hasActiveConnections s.binChannels b = false →
      (cleanupSweep s cutoff false false).db.bins.filter (fun r => r.id == b) = [] ∧
      (cleanupSweep s cutoff false false).binChannels.filter
        (fun kv => kv.1 == b) = []) := by
  constructor
  · intro hlive
    unfold cleanupSweep
    by_cases hq : fq = true
    · simp [hq]
    · simp only [hq, Bool.false_eq_true, if_false]
      exact (cleanupFold_keeps_live fd _ (s.db, s.binChannels) b hlive).2
  · intro row hrow hid hlt hdead
    have hmem : b ∈ (s.db.bins.filter (fun r => r.last_updated < cutoff)).map
        (fun r => r.id) := by
      rw [List.mem_map]
      exact ⟨row, List.mem_filter.mpr ⟨hrow, by simp [hlt]⟩, hid⟩
    unfold cleanupSweep
    simp only [Bool.false_eq_true, if_false]
    exact cleanupFold_removes _ (s.db, s.binChannels) b hmem hdead

def s7 : AppState := ⟨⟨[⟨binA, 0⟩, ⟨binB, 0⟩], [], 0⟩, [(binA, 1)], limsW⟩

theorem C7_liveness_overrides_expiry_witness :
    hasActiveConnections s7.binChannels binA = true ∧
    ((cleanupSweep s7 10 false false).db.bins.filter (fun r => r.id == binA) =
      s7.db.bins.filter (fun r => r.id == binA)) ∧
    ((cleanupSweep s7 10 false false).db.bins.filter (fun r => r.id == binB) = [] ∧
      (cleanupSweep s7 10 false false).binChannels.filter
        (fun kv => kv.1 == binB) = []) :=
  ⟨by decide,
   (C7_liveness_overrides_expiry s7 10 false false binA).1 (by decide),
   (C7_liveness_overrides_expiry s7 10 false false binB).2 ⟨binB, 0⟩ (by decide) rfl
     (by decide) (by decide)⟩
